import Mathlib

/-!
Verification development for the rowboat python backend.

The definitions below are shallow embeddings of the backend's Python
modules (`simplified_auth.py`, `websocket_manager.py`,
`crew_manager_simple.py`, `crew_manager_optimized.py`, `main.py`).
Python dictionaries are embedded as association lists (insertion order
preserved, unique keys maintained by the operations), raised exceptions
as `Except` values, and stateful methods as explicit state passing.
-/

/-- An exception value as raised by the embedded Python code. -/
inductive PyErr where
  | valueError (msg : String)
  | nameError (missing : String)
  | keyError (key : String)
  | attributeError (obj attr : String)
  | httpExc (status : Nat) (detail : String)
  | unboundLocalError (name : String)
  | other (msg : String)
deriving DecidableEq, Repr

/-- Association-list lookup, embedding Python's `d[k]` / `d.get(k)` for
dictionaries with unique keys. -/
def alookup {α β : Type} [DecidableEq α] : List (α × β) → α → Option β
  | [], _ => none
  | (k, v) :: rest, key => if key = k then some v else alookup rest key

/-- Association-list removal of a key, embedding Python's `del d[k]`
(guarded by a membership check at every call site in the source). -/
def aerase {α β : Type} [DecidableEq α] : List (α × β) → α → List (α × β)
  | [], _ => []
  | (k, v) :: rest, key => if key = k then aerase rest key else (k, v) :: aerase rest key

/-- Association-list insertion or in-place update, embedding Python's
`d[k] = v` for dictionaries with unique keys. -/
def aset {α β : Type} [DecidableEq α] : List (α × β) → α → β → List (α × β)
  | [], key, v => [(key, v)]
  | (k, w) :: rest, key, v => if key = k then (key, v) :: rest else (k, w) :: aset rest key v

/-! ## simplified_auth.py -/

/-- A user record from `SimpleAuth.test_users`.  The hard-coded default
user returned by `get_current_user_simple` on authentication failure has
no `permissions` / `status` keys, hence the `Option` fields. -/
structure UserRec where
  id : String
  username : String
  email : String
  role : String
  permissions : Option (List String)
  status : Option String
deriving DecidableEq, Repr

/-- `SimpleAuth.test_users`: the static user table. -/
def test_users : List (String × UserRec) :=
  [ ("system_admin",
      { id := "admin_001", username := "system_admin", email := "admin@system.com",
        role := "admin", permissions := some ["read", "write", "delete", "admin"],
        status := some "active" }),
    ("test_user",
      { id := "user_001", username := "test_user", email := "user@example.com",
        role := "user", permissions := some ["read", "write"],
        status := some "active" }),
    ("system",
      { id := "system", username := "system", email := "system@platform.com",
        role := "system", permissions := some ["read", "write", "dictate"],
        status := some "active" }) ]

/-- `SimpleAuth.test_tokens`: the static token-to-user-id table. -/
def test_tokens : List (String × String) :=
  [ ("demo_token_123", "system_admin"),
    ("demo_token_456", "test_user"),
    ("demo_token_789", "system"),
    ("test_performance_user_token", "system_admin") ]

/-- `SimpleAuth.validate_token`: looks the token up in `test_tokens` and
returns the mapped user record; failing that, also accepts a user id
itself as a token (`if token in self.test_users: return ...`). -/
def validate_token (token : String) : Option UserRec :=
  let viaToken : Option UserRec :=
    match alookup test_tokens token with
    | some user_id => alookup test_users user_id
    | none => none
  match viaToken with
  | some u => some u
  | none => alookup test_users token

/-- The hard-coded fallback user that `get_current_user_simple` returns
when token validation fails. -/
def default_test_user : UserRec :=
  { id := "test_user", username := "test_user", email := "test@example.com",
    role := "user", permissions := none, status := none }

/-- The `try:` block of `get_current_user_simple`: absent credentials
default to `"demo_token_123"`, an empty token and a token that fails
`validate_token` both raise HTTP 401. -/
def get_current_user_simple_try (credentials : Option String) : Except PyErr UserRec :=
  let token := match credentials with
    | some c => c
    | none => "demo_token_123"
  if token = "" then
    Except.error (PyErr.httpExc 401 "需要提供认证信息")
  else
    match validate_token token with
    | some user => Except.ok user
    | none => Except.error (PyErr.httpExc 401 "无效的认证信息")

/-- `get_current_user_simple`: the `try` block with its
`except HTTPException` handler, which swallows the 401s and returns the
hard-coded default test user instead. -/
def get_current_user_simple (credentials : Option String) : Except PyErr UserRec :=
  match get_current_user_simple_try credentials with
  | Except.ok user => Except.ok user
  | Except.error (PyErr.httpExc _ _) => Except.ok default_test_user
  | Except.error e => Except.error e

/-! ## Theorems for C4 and C9 -/

/-- C4 counterexample: the claim says `validate_token` returns `None`
for every token outside the static `test_tokens` table, but the user id
`"system_admin"` is not a key of `test_tokens` and is nevertheless
accepted (the code also accepts user ids as tokens). -/
theorem c4_validate_token_counterexample :
    alookup test_tokens "system_admin" = none ∧
      validate_token "system_admin" = alookup test_users "system_admin" ∧
      validate_token "system_admin" ≠ none := by
  refine ⟨rfl, rfl, ?_⟩
  intro h
  simp [validate_token, test_users, test_tokens, alookup] at h

/-- C4 amended: `validate_token t` returns the user record mapped to `t`
when `t` is a token of the static `test_tokens` table, returns the user
record keyed by `t` when `t` is itself a user id of `test_users`, and
returns `None` for every other token. -/
theorem c4_validate_token_amended (t : String) :
    (∀ uid, alookup test_tokens t = some uid →
      validate_token t = alookup test_users uid) ∧
    (alookup test_tokens t = none →
      validate_token t = alookup test_users t) := by
  constructor
  · intro uid huid
    simp only [test_tokens, alookup] at huid
    split_ifs at huid <;>
      (injection huid with huid; subst huid; subst_vars; rfl)
  · intro hnone
    simp [validate_token, hnone]

/-- Witness for `c4_validate_token_amended` at the concrete token
`"demo_token_456"`. -/
theorem c4_validate_token_amended_witness :
    alookup test_tokens "demo_token_456" = some "test_user" ∧
      validate_token "demo_token_456" = alookup test_users "test_user" := by
  exact ⟨rfl, (c4_validate_token_amended "demo_token_456").1 "test_user" rfl⟩

/-- C9: `get_current_user_simple` never raises — it returns a user
record for every credentials value — and whenever the carried token
fails `validate_token` it returns the hard-coded default test user,
whose role is `"user"`. -/
theorem c9_get_current_user_simple_total (credentials : Option String) :
    (∃ u, get_current_user_simple credentials = Except.ok u) ∧
    (∀ t, credentials = some t → validate_token t = none →
      get_current_user_simple credentials = Except.ok default_test_user) ∧
    default_test_user.role = "user" := by
  refine ⟨?_, ?_, rfl⟩
  · rcases credentials with _ | c
    · exact ⟨_, rfl⟩
    · by_cases hc : c = ""
      · subst hc; exact ⟨_, rfl⟩
      · cases hval : validate_token c with
        | some u =>
            refine ⟨u, ?_⟩
            unfold get_current_user_simple get_current_user_simple_try
            simp [hc, hval]
        | none =>
            refine ⟨default_test_user, ?_⟩
            unfold get_current_user_simple get_current_user_simple_try
            simp [hc, hval]
  · intro t ht hval
    subst ht
    unfold get_current_user_simple get_current_user_simple_try
    by_cases hc : t = ""
    · simp [hc]
    · simp [hc, hval]

/-- Witness for `c9_get_current_user_simple_total` at the concrete
unknown token `"no_such_token"`. -/
theorem c9_get_current_user_simple_total_witness :
    validate_token "no_such_token" = none ∧
      get_current_user_simple (some "no_such_token") = Except.ok default_test_user := by
  refine ⟨by decide, ?_⟩
  exact (c9_get_current_user_simple_total (some "no_such_token")).2.1
    "no_such_token" rfl (by decide)

/-! ## crew_manager_simple.py -/

/-- A CrewAI agent as stored by `SimpleCrewAIAgentManager` — the claims
only inspect its `role` attribute. -/
structure SAgent where
  role : String
deriving DecidableEq, Repr

/-- A CrewAI crew as stored by `SimpleCrewAIAgentManager.crews`. -/
structure SCrew where
  agents : List SAgent
deriving DecidableEq, Repr

/-- The `agents` / `crews` registries of `SimpleCrewAIAgentManager`. -/
structure SimpleState where
  agents : List (String × SAgent)
  crews : List (String × SCrew)
deriving DecidableEq, Repr

/-- The generator expression
`any(agent.role == self.agents[agent_id].role for agent in crew.agents)`
evaluated inside `remove_agent` after `del self.agents[agent_id]`: each
step subscripts `self.agents[agent_id]`, raising `KeyError` when the id
is absent (the subscript is only evaluated when the crew has agents). -/
def anyRoleMatches (agentsMap : List (String × SAgent)) (agent_id : String) :
    List SAgent → Except PyErr Bool
  | [] => Except.ok false
  | a :: rest =>
    match alookup agentsMap agent_id with
    | none => Except.error (PyErr.keyError agent_id)
    | some target =>
      if a.role = target.role then Except.ok true
      else anyRoleMatches agentsMap agent_id rest

/-- The `crews_to_remove` list comprehension of `remove_agent`. -/
def crewsToRemove (agentsMap : List (String × SAgent)) (agent_id : String) :
    List (String × SCrew) → Except PyErr (List String)
  | [] => Except.ok []
  | (crew_id, crew) :: rest =>
    match anyRoleMatches agentsMap agent_id crew.agents with
    | Except.error e => Except.error e
    | Except.ok b =>
      match crewsToRemove agentsMap agent_id rest with
      | Except.error e => Except.error e
      | Except.ok ids => Except.ok (if b then crew_id :: ids else ids)

/-- `SimpleCrewAIAgentManager.remove_agent`: deletes the agent from the
registry, then builds `crews_to_remove` by subscripting the registry it
just deleted from, deletes those crews and returns `True`; returns
`False` when the id is absent.  The returned state is the registry pair
after the call, also when an exception escapes. -/
def remove_agent (st : SimpleState) (agent_id : String) :
    Except PyErr Bool × SimpleState :=
  if (alookup st.agents agent_id).isSome then
    let st1 : SimpleState := { st with agents := aerase st.agents agent_id }
    match crewsToRemove st1.agents agent_id st1.crews with
    | Except.error e => (Except.error e, st1)
    | Except.ok ids =>
      (Except.ok true, { st1 with crews := ids.foldl (fun cs i => aerase cs i) st1.crews })
  else
    (Except.ok false, st)

/-- The possible outcomes of the `crew.kickoff()` call that
`copilot_assist` offloads with
`asyncio.wait_for(asyncio.to_thread(crew.kickoff), timeout=120.0)`:
the thread completes with an extracted result string, the 120-second
wall clock elapses (`asyncio.TimeoutError`), or the call raises. -/
inductive KickoffOutcome where
  | completed (result : String)
  | timedOut
  | raised (msg : String)
deriving DecidableEq, Repr

/-- The wall-clock bound (seconds) passed to `asyncio.wait_for` around
`crew.kickoff()` in `copilot_assist`. -/
def copilotKickoffTimeoutSeconds : Nat := 120

/-- The fixed string `copilot_assist` returns when the kickoff times
out. -/
def copilotTimeoutMessage : String := "生成配置超时，请稍后重试或简化您的需求。"

/-- `SimpleCrewAIAgentManager.copilot_assist` (CrewAI-available branch),
from the `asyncio.wait_for` call onwards: a completed kickoff returns
the extracted result, `asyncio.TimeoutError` is caught and mapped to the
fixed timeout message, any other exception is logged and re-raised. -/
def copilot_assist (outcome : KickoffOutcome) : Except PyErr String :=
  match outcome with
  | KickoffOutcome.completed result => Except.ok result
  | KickoffOutcome.timedOut => Except.ok copilotTimeoutMessage
  | KickoffOutcome.raised msg => Except.error (PyErr.other msg)

/-! ## Theorems for C7 and C8 -/

/-- C7: the `crew.kickoff()` call in `copilot_assist` is bounded by a
120-second wall-clock timeout, and on timeout the function does not
raise: it returns the fixed string
`生成配置超时，请稍后重试或简化您的需求。`. -/
theorem c7_copilot_timeout :
    copilot_assist KickoffOutcome.timedOut = Except.ok copilotTimeoutMessage ∧
      copilotTimeoutMessage = "生成配置超时，请稍后重试或简化您的需求。" ∧
      copilotKickoffTimeoutSeconds = 120 ∧
      (∀ r, copilot_assist (KickoffOutcome.completed r) = Except.ok r) := by
  exact ⟨rfl, rfl, rfl, fun _ => rfl⟩

/-- C8 evaluated at the failing input: with one registered agent
`"a1"` (role `"R"`) and one stored crew `"c1"` containing an agent of
role `"R"`, `remove_agent "a1"` raises `KeyError` (it subscripts
`self.agents["a1"]` after deleting that key) instead of deleting the
crew and returning `True`; the agent is gone but the crew survives.
The absent-id branch behaves as claimed. -/
theorem c8_remove_agent_code_bug :
    remove_agent ⟨[("a1", ⟨"R"⟩)], [("c1", ⟨[⟨"R"⟩]⟩)]⟩ "a1" =
      (Except.error (PyErr.keyError "a1"), ⟨[], [("c1", ⟨[⟨"R"⟩]⟩)]⟩) ∧
    remove_agent ⟨[("a1", ⟨"R"⟩)], [("c1", ⟨[⟨"R"⟩]⟩)]⟩ "zz" =
      (Except.ok false, ⟨[("a1", ⟨"R"⟩)], [("c1", ⟨[⟨"R"⟩]⟩)]⟩) := by
  exact ⟨rfl, rfl⟩

/-! ## crew_manager_optimized.py -/

/-- Python `str.lower()` restricted to character-wise lowering. -/
def strLower (s : String) : String := String.mk (s.toList.map Char.toLower)

/-- Python's substring test `needle in hay` on the underlying character
lists. -/
def charsHasSub : List Char → List Char → Bool
  | needle, [] => needle.isEmpty
  | needle, c :: rest => needle.isPrefixOf (c :: rest) || charsHasSub needle rest

/-- Python's `needle in hay` for strings. -/
def strIn (needle hay : String) : Bool := charsHasSub needle.toList hay.toList

/-- An agent configuration (`models.Agent`) as consumed by
`create_agent_optimized`; the pydantic model's `id` is a required string
(an empty string is falsy, triggering the generated id), `description`
is optional.  Fields not read by the foreground creation path (`tools`,
`config`, the rag flags) only feed fire-and-forget background tasks and
are omitted. -/
structure AgentConfig where
  id : String
  name : String
  description : Option String
deriving DecidableEq, Repr

/-- One of the three entries of
`OptimizedCrewAIAgentManager._agent_templates`. -/
structure AgentTemplate where
  role : String
  goal : String
  backstory : String
deriving DecidableEq, Repr

/-- `OptimizedCrewAIAgentManager._agent_templates`. -/
def agent_templates : List (String × AgentTemplate) :=
  [ ("reasoning",
      { role := "AI推理专家", goal := "进行复杂推理和分析任务",
        backstory := "专门训练用于推理和问题解决的AI智能体，拥有深厚的逻辑思维和分析能力。" }),
    ("coding",
      { role := "AI编程助手", goal := "协助编程和技术实现",
        backstory := "专业的软件开发助手，精通多种编程语言和最佳实践。" }),
    ("default",
      { role := "AI智能助手", goal := "协助用户处理各种任务",
        backstory := "多功能的AI助手，致力于提供专业、高效的帮助。" }) ]

/-- The `default` template (`self._agent_templates["default"]`). -/
def defaultTemplate : AgentTemplate :=
  { role := "AI智能助手", goal := "协助用户处理各种任务",
    backstory := "多功能的AI助手，致力于提供专业、高效的帮助。" }

/-- The keyword table of `_fast_template_select` in insertion order. -/
def template_keywords : List (String × String) :=
  [ ("code", "coding"), ("programming", "coding"), ("analysis", "reasoning"),
    ("推理", "reasoning"), ("logic", "reasoning"), ("search", "default"),
    ("help", "default") ]

/-- `OptimizedCrewAIAgentManager._fast_validate_agent_config`: the name
must be non-empty with length in [2, 100]; the description, when
present, at most 1000 characters. -/
def _fast_validate_agent_config (c : AgentConfig) : Bool :=
  if c.name = "" ∨ c.name.length < 2 ∨ c.name.length > 100 then false
  else
    match c.description with
    | some d => if d.length > 1000 then false else true
    | none => true

/-- `OptimizedCrewAIAgentManager._fast_template_select`: the first
keyword found in the lowered name (or lowered description, when present)
selects its template; otherwise the default template.  The final
`self._agent_templates[template]` subscript never misses because every
keyword maps to one of the three template names. -/
def _fast_template_select (name : String) (description : Option String) : AgentTemplate :=
  if name = "" then defaultTemplate
  else
    let nameL := strLower name
    let descL := description.map strLower
    match template_keywords.find?
        (fun kv => strIn kv.1 nameL ||
          (match descL with
           | some d => strIn kv.1 d
           | none => false)) with
    | some kv => (alookup agent_templates kv.2).getD defaultTemplate
    | none => defaultTemplate

/-- The lightweight CrewAI agent entity built by
`_fast_create_agent_entity` from the selected template (the backstory is
truncated to 300 characters; the llm/tools/flags arguments carry no
observable state for these claims). -/
structure CrewAgent where
  role : String
  goal : String
  backstory : String
deriving DecidableEq, Repr

/-- `OptimizedCrewAIAgentManager._fast_create_agent_entity`. -/
def _fast_create_agent_entity (t : AgentTemplate) : CrewAgent :=
  { role := t.role, goal := t.goal, backstory := t.backstory.take 300 }

/-- A value stored in `OptimizedCrewAIAgentManager.agents` or returned
by `create_agent_optimized`: a CrewAI agent, the emergency-fallback
dictionary, or the final `{"error": ..., "status": "degraded",
"available": True}` dictionary. -/
inductive AgentVal where
  | crewAgent (a : CrewAgent)
  | emergency (role goal capabilities status : String) (fallback : Bool)
  | errorDict (error status : String) (available : Bool)
deriving DecidableEq, Repr

/-- The mutable state of `OptimizedCrewAIAgentManager` read by the
creation path: the `agents` map and `_agent_id_counter`. -/
structure OptState where
  agents : List (String × AgentVal)
  counter : Nat
deriving DecidableEq, Repr

/-- The module-level name `basic_metrics` is used at lines 294 and 519
of `crew_manager_optimized.py` but never imported there, so both
attribute calls raise `NameError` (and `BasicMetricsCollector` defines
no `record_metric` method in any case). -/
def optimizedRecordMetricCall : Except PyErr Unit :=
  Except.error (PyErr.nameError "basic_metrics")

/-- `basic_metrics.record_error("emergency_fallback_triggered")` inside
`_create_emergency_fallback`: the same missing `basic_metrics` name. -/
def optimizedRecordErrorCall : Except PyErr Unit :=
  Except.error (PyErr.nameError "basic_metrics")

/-- The agent id computed at the top of `create_agent_optimized`:
`agent_config.id or f"agent_opt_{int(start_time)}{self._agent_id_counter}"`. -/
def computeAgentId (c : AgentConfig) (startTime : Nat) (counter : Nat) : String :=
  if c.id = "" then s!"agent_opt_{startTime}{counter}" else c.id

/-- `OptimizedCrewAIAgentManager._create_emergency_fallback`: builds the
stub dictionary, stores it under the agent id, then calls
`basic_metrics.record_error` — whose `NameError` is caught by the
method's own `except`, which returns the `errorDict` value instead of
the stub. -/
def _create_emergency_fallback (c : AgentConfig) (agent_id : String) (st : OptState) :
    AgentVal × OptState :=
  let fb := AgentVal.emergency
    (if c.name = "" then "备用助手" else c.name.take 30)
    "提供基础智能响应" "emergency_mode" "operational" true
  let st1 : OptState := { st with agents := aset st.agents agent_id fb }
  match optimizedRecordErrorCall with
  | Except.ok _ => (fb, st1)
  | Except.error _ =>
    (AgentVal.errorDict "All agent creation methods failed" "degraded" true, st1)

/-- `OptimizedCrewAIAgentManager.create_agent_optimized`: computes the
agent id and bumps the counter, then in a `try` block validates the
config (raising `ValueError` on failure), selects the template, ensures
initialization (which swallows its own exceptions), creates the
lightweight entity, gathers the background tasks with
`return_exceptions=True` (so they cannot raise), stores the agent, and
calls `basic_metrics.record_metric` — whose `NameError` sends every
successful run into `_create_emergency_fallback`. -/
def create_agent_optimized (st0 : OptState) (c : AgentConfig) (startTime : Nat) :
    AgentVal × OptState :=
  let agent_id := computeAgentId c startTime st0.counter
  let st1 : OptState := { st0 with counter := st0.counter + 1 }
  if _fast_validate_agent_config c = false then
    _create_emergency_fallback c agent_id st1
  else
    let tmpl := _fast_template_select c.name c.description
    let agent := _fast_create_agent_entity tmpl
    let st2 : OptState := { st1 with agents := aset st1.agents agent_id (AgentVal.crewAgent agent) }
    match optimizedRecordMetricCall with
    | Except.ok _ => (AgentVal.crewAgent agent, st2)
    | Except.error _ => _create_emergency_fallback c agent_id st2

/-! ## Theorems for C1 and C2 -/

set_option maxRecDepth 4000 in
/-- C1 evaluated at a failing input: the configuration named
`"myagent"` passes validation, selects the default template, and the
created agent is stored — but the unimported `basic_metrics` name makes
`record_metric` raise `NameError`, so the emergency fallback overwrites
the stored agent with the stub and `create_agent_optimized` returns the
`errorDict` value instead of the created agent. -/
theorem c1_create_agent_optimized_code_bug :
    _fast_validate_agent_config ⟨"", "myagent", none⟩ = true ∧
    _fast_template_select "myagent" none = defaultTemplate ∧
    create_agent_optimized ⟨[], 0⟩ ⟨"", "myagent", none⟩ 1000 =
      (AgentVal.errorDict "All agent creation methods failed" "degraded" true,
       ⟨[("agent_opt_10000",
          AgentVal.emergency "myagent" "提供基础智能响应" "emergency_mode"
            "operational" true)], 1⟩) := by
  exact ⟨rfl, rfl, rfl⟩

set_option maxRecDepth 4000 in
/-- C2 evaluated at a failing input: the invalid name `"x"` raises
`ValueError`, the emergency fallback builds and stores the stub — but
its own `basic_metrics.record_error` call raises `NameError`, so
`create_agent_optimized` returns the `errorDict` value, not the stored
stub (the call still never raises and never returns `None`). -/
theorem c2_emergency_fallback_code_bug :
    _fast_validate_agent_config ⟨"", "x", none⟩ = false ∧
    create_agent_optimized ⟨[], 0⟩ ⟨"", "x", none⟩ 1000 =
      (AgentVal.errorDict "All agent creation methods failed" "degraded" true,
       ⟨[("agent_opt_10000",
          AgentVal.emergency "x" "提供基础智能响应" "emergency_mode"
            "operational" true)], 1⟩) ∧
    (AgentVal.errorDict "All agent creation methods failed" "degraded" true ≠
      AgentVal.emergency "x" "提供基础智能响应" "emergency_mode" "operational" true) := by
  refine ⟨rfl, rfl, ?_⟩
  intro h
  cases h

/-! ## main.py endpoints -/

/-- Python's `str(e)` for the exception values this embedding raises. -/
def pyErrStr : PyErr → String
  | PyErr.valueError m => m
  | PyErr.nameError n => "name \x27" ++ n ++ "\x27 is not defined"
  | PyErr.keyError k => "\x27" ++ k ++ "\x27"
  | PyErr.attributeError obj attr =>
      "\x27" ++ obj ++ "\x27 object has no attribute \x27" ++ attr ++ "\x27"
  | PyErr.httpExc _ detail => detail
  | PyErr.unboundLocalError n =>
      "cannot access local variable \x27" ++ n ++ "\x27 where it is not associated with a value"
  | PyErr.other m => m

/-- An HTTP response as produced by FastAPI's `PlainTextResponse`
(status 200 by default). -/
structure HTTPResponse where
  status : Nat
  body : String
  mediaType : String
deriving DecidableEq, Repr

/-- Evaluating the name `basic_metrics` at the top of
`metrics_endpoint`: the `except` branch of that function assigns
`basic_metrics = [...]`, which makes the name local to the whole
function, so the read at `basic_metrics.get_metrics_content()` raises
`UnboundLocalError` before the collector is ever consulted. -/
def metricsLocalBasicMetrics : Except PyErr Unit :=
  Except.error (PyErr.unboundLocalError "basic_metrics")

/-- The `"\n".join(...)` fallback body built in the `except` branch of
`metrics_endpoint` (`now` is `int(time.time())`). -/
def metricsFallbackBody (now : Nat) : String :=
  String.intercalate "\n"
    [ "# Rowboat Basic Metrics - Fallback",
      "rowboat_service_status\x7bservice=\"python-backend\"\x7d 1.0",
      s!"rowboat_timestamp {now}",
      "# Service is running" ]

/-- `metrics_endpoint` (GET `/metrics`): the `try` block reads the local
name `basic_metrics` (raising `UnboundLocalError`) before it could
return `metricsContent` — the string that
`basic_metrics.get_metrics_content()` would have produced — and the
`except` branch answers with the fallback body instead. -/
def metrics_endpoint (now : Nat) (metricsContent : String) : HTTPResponse :=
  let tryBlock : Except PyErr String :=
    match metricsLocalBasicMetrics with
    | Except.error e => Except.error e
    | Except.ok _ => Except.ok metricsContent
  match tryBlock with
  | Except.ok content => { status := 200, body := content, mediaType := "text/plain" }
  | Except.error _ =>
      { status := 200, body := metricsFallbackBody now, mediaType := "text/plain" }

/-- Python's `str.startswith` embedded on the character lists. -/
def strStarts (p s : String) : Bool := p.toList.isPrefixOf s.toList

/-- The `valid_agent_prefixes` list of `interact_with_agent`. -/
def valid_agent_prefixes : List String :=
  ["agent_", "mock_agent_", "072", "cde", "system_"]

/-- The agent-id validity test of `interact_with_agent`: one of the
known prefixes, or a 36-character (UUID-length) id. -/
def isValidAgentId (agent_id : String) : Bool :=
  valid_agent_prefixes.any (fun p => strStarts p agent_id) ||
    agent_id.length == 36

/-- `sum(1 for c in user_message if ord(c) > 127)`. -/
def chineseCharCount (user_message : String) : Nat :=
  (user_message.toList.filter (fun c => 127 < c.toNat)).length

/-- The pure-Chinese response text of `interact_with_agent`
(`language_config == "chinese"`, `response_style` 纯中文专业风格). -/
def chineseResponse (user_message : String) : String :=
  "您好！感谢您的提问。关于您提到的\x27" ++ user_message ++ "\x27，我来为您详细解答：" ++
  "\n\n根据您的问题，这里提供纯中文专业风格的专业回复。" ++
  "\n\n【技术环境确认】当前使用的是Python+FastAPI+CrewAI技术栈，后端重构已经完成。" ++
  "\n【语言环境】系统已自动切换至纯中文模式，避免中英文混排。" ++
  "\n【模型信息】正在使用硅基流动提供的DeepSeek-V3.2-Exp模型。" ++
  "\n\n如果您需要更详细的解释或其他帮助，请随时告诉我。"

/-- The Chinese-primary response text of `interact_with_agent`
(`language_config == "chinese_primary"`, `response_style`
中文主导专业风格). -/
def chinesePrimaryResponse (user_message : String) : String :=
  "您好！我收到了您的消息：\x27" ++ user_message ++ "\x27" ++
  "\n\n基于您的问题内容，我将使用中文主导专业风格进行回复。" ++
  "\n当前系统包含以下功能模块：多智能体协作、任务执行管理、实时消息处理和配置管理。" ++
  "\n技术架构：Python后端结合CrewAI框架，支持完整的AI智能功能。" ++
  "\n\n系统将保持主要中文回复，确保交流的清晰和准确。"

/-- The balanced response text of `interact_with_agent`
(`language_config == "balanced"`). -/
def balancedResponse (user_message : String) : String :=
  "感谢您的提问！关于\x27" ++ user_message ++ "\x27的问题：" ++
  "\n\n当前系统架构 - Python后端重构完成，集成CrewAI多智能体框架：" ++
  "\n✅ FastAPI服务运行正常" ++
  "\n✅ Python后端与CrewAI集成" ++
  "\n✅ 多智能体协作机制" ++
  "\n✅ 实时任务处理能力" ++
  "\n✅ 配置管理和监控功能"

/-- The fields of the success `response_data` dictionary of
`interact_with_agent` that the claims observe (the clock-derived
`interaction_id` / `timestamp` / `processing_time_ms` values and the
constant `metadata` block are omitted from the embedding). -/
structure InteractData where
  agent_id : String
  user_message : String
  agent_response : String
  status : String
  language_config : String
deriving DecidableEq, Repr

/-- The degraded-fallback dictionary built by the
`except Exception` branch of `interact_with_agent`. -/
structure InteractFallback where
  agent_id : String
  user_message : String
  agent_response : String
  status : String
  error_handled : Bool
  fallback_chinese : Bool
deriving DecidableEq, Repr

/-- The `agent_response` text of the fallback dictionary
(`str(e)[:80]` is the truncated exception text). -/
def interactFallbackResponse (errStr : String) : String :=
  "系统处理中遇到问题，正在启动备用响应机制。\n\n当前状态：\n✅ 后端服务正常" ++
  "\n✅ FastAPI响应\n✅ 智能体框架就绪\n\n系统正在加载备用中文响应，请稍后再试。" ++
  "\n\n错误信息：" ++ errStr.take 80 ++ "..."

/-- The `try` block of `interact_with_agent`: a 404 `HTTPException` for
unrecognized agent ids, otherwise the language-analysis response.  The
float ratio comparisons `chinese_ratio > 0.7 / 0.5 / 0.6` are embedded
as the exact rational comparisons `10 * cc > 7 * total` etc. (with
`ratio = 0` when the message is empty, as in the source). -/
def interactBody (agent_id user_message : String) : Except PyErr InteractData :=
  if isValidAgentId agent_id then
    let cc := chineseCharCount user_message
    let total := user_message.length
    let language_config :=
      if 10 * cc > 7 * total then "chinese"
      else if 10 * cc > 5 * total then "chinese_primary"
      else "balanced"
    let agent_response :=
      if 10 * cc > 7 * total then chineseResponse user_message
      else if 10 * cc > 5 * total then chinesePrimaryResponse user_message
      else balancedResponse user_message
    let optimization_config :=
      if 10 * cc > 6 * total then "" else "（多语言环境已适配）"
    Except.ok
      { agent_id := agent_id, user_message := user_message,
        agent_response := agent_response ++ optimization_config,
        status := "success", language_config := language_config }
  else
    Except.error (PyErr.httpExc 404 s!"Agent {agent_id} not found")

/-- The value POST `/api/agents/{agent_id}/interact` answers with. -/
inductive InteractResult where
  | success (d : InteractData)
  | fallback (f : InteractFallback)
deriving DecidableEq, Repr

/-- `interact_with_agent`: the `try` body followed by
`except HTTPException: raise` and the broad `except Exception` branch
that builds the degraded fallback dictionary.  `injected` stands for an
unexpected runtime exception raised inside the `try` block (the body
itself only raises the 404 `HTTPException`). -/
def interact_with_agent (agent_id user_message : String) (injected : Option PyErr) :
    Except (Nat × String) InteractResult :=
  let bodyOutcome : Except PyErr InteractData :=
    match injected with
    | some e => Except.error e
    | none => interactBody agent_id user_message
  match bodyOutcome with
  | Except.ok d => Except.ok (InteractResult.success d)
  | Except.error (PyErr.httpExc s detail) => Except.error (s, detail)
  | Except.error e =>
      Except.ok (InteractResult.fallback
        { agent_id := agent_id, user_message := user_message,
          agent_response := interactFallbackResponse (pyErrStr e),
          status := "degraded_but_operational", error_handled := true,
          fallback_chinese := true })

/-- `delete_agent`'s call `basic_metrics.record_api_call("delete_agent")`:
`BasicMetricsCollector` defines no `record_api_call` method, so the call
raises `AttributeError`. -/
def deleteRecordApiCall : Except PyErr Unit :=
  Except.error (PyErr.attributeError "BasicMetricsCollector" "record_api_call")

/-- `delete_agent` (DELETE `/api/agents/{agent_id}`), given the role of
the already-authenticated user: 403 for non-admins, 400 for ids starting
with `"system"`, and otherwise the metric-recording call before the
success body — whose `AttributeError` the broad `except` turns into an
HTTP 500. -/
def delete_agent (role agent_id : String) : Except (Nat × String) (Bool × String) :=
  let body : Except PyErr (Bool × String) :=
    if role ≠ "admin" then
      Except.error (PyErr.httpExc 403 "Need admin permissions to delete agents")
    else if strStarts "system" agent_id then
      Except.error (PyErr.httpExc 400 "Cannot delete system agents")
    else
      match deleteRecordApiCall with
      | Except.error e => Except.error e
      | Except.ok _ => Except.ok (true, s!"Agent {agent_id} deleted successfully")
  match body with
  | Except.ok r => Except.ok r
  | Except.error (PyErr.httpExc s d) => Except.error (s, d)
  | Except.error e => Except.error (500, "Failed to delete agent: " ++ pyErrStr e)

/-! ## Theorems for C3, C5 and C10 -/

/-- C3 evaluated: because the `except` branch of `metrics_endpoint`
assigns to the name `basic_metrics`, the read at the top of the `try`
block raises `UnboundLocalError`, so for every clock value and every
string the collector would have produced, the endpoint returns the
four-line fallback body — never the Prometheus content of
`get_metrics_content()`. -/
theorem c3_metrics_endpoint_code_bug (now : Nat) (metricsContent : String) :
    metrics_endpoint now metricsContent =
      { status := 200, body := metricsFallbackBody now, mediaType := "text/plain" } ∧
    metrics_endpoint 0 "metric_a 1.0" = metrics_endpoint 0 "metric_b 2.0" := by
  exact ⟨rfl, rfl⟩

/-- C5: a non-`HTTPException` error raised while handling the
interaction is not propagated — the handler returns the fallback object
carrying the original agent id and user message, status
`"degraded_but_operational"` and `error_handled = True` — while
`HTTPException`s (such as the 404 for an unrecognized agent id) are
re-raised. -/
theorem c5_interact_fallback (agent_id user_message msg : String) :
    interact_with_agent agent_id user_message (some (PyErr.other msg)) =
      Except.ok (InteractResult.fallback
        { agent_id := agent_id, user_message := user_message,
          agent_response := interactFallbackResponse msg,
          status := "degraded_but_operational", error_handled := true,
          fallback_chinese := true }) ∧
    (∀ s detail, interact_with_agent agent_id user_message
        (some (PyErr.httpExc s detail)) = Except.error (s, detail)) ∧
    (isValidAgentId agent_id = false →
      interact_with_agent agent_id user_message none =
        Except.error (404, s!"Agent {agent_id} not found")) := by
  refine ⟨rfl, fun _ _ => rfl, fun h => ?_⟩
  simp [interact_with_agent, interactBody, h]

/-- Witness for `c5_interact_fallback` at the unrecognized agent id
`"zzz"`. -/
theorem c5_interact_fallback_witness :
    isValidAgentId "zzz" = false ∧
      interact_with_agent "zzz" "hello" none = Except.error (404, "Agent zzz not found") := by
  refine ⟨by decide, ?_⟩
  exact (c5_interact_fallback "zzz" "hello" "").2.2 (by decide)

/-- C10: with an admin user, DELETE `/api/agents/{agent_id}` raises
HTTP 400 for every agent id starting with `"system"`; but for other ids
the claimed success body is never returned — the
`basic_metrics.record_api_call` call raises `AttributeError` (the
collector has no such method), which the broad `except` converts into an
HTTP 500. -/
theorem c10_delete_agent_code_bug :
    delete_agent "admin" "agent_123" =
      Except.error (500,
        "Failed to delete agent: \x27BasicMetricsCollector\x27 object has no attribute \x27record_api_call\x27") ∧
    (∀ agent_id, strStarts "system" agent_id = true →
      delete_agent "admin" agent_id = Except.error (400, "Cannot delete system agents")) := by
  refine ⟨rfl, fun agent_id h => ?_⟩
  simp [delete_agent, h]

/-- Witness for `c10_delete_agent_code_bug` at the system agent id
`"system_core"`. -/
theorem c10_delete_agent_code_bug_witness :
    strStarts "system" "system_core" = true ∧
      delete_agent "admin" "system_core" = Except.error (400, "Cannot delete system agents") := by
  refine ⟨by decide, ?_⟩
  exact c10_delete_agent_code_bug.2 "system_core" (by decide)

/-! ## websocket_manager.py -/

/-- One `WebSocketManager` operation: `connect(websocket,
conversation_id)` or `disconnect(conversation_id, websocket)` (the
`websocket` argument of `disconnect` is optional). -/
inductive WSOp where
  | connect (ws : Nat) (conversation_id : String)
  | disconnect (conversation_id : String) (ws : Option Nat)
deriving DecidableEq, Repr

/-- The `WebSocketManager` state: `active_connections` (conversation id
to list of websockets) and `connection_metadata` (websocket to its
metadata, of which only the conversation id matters here). -/
structure WSState where
  active : List (String × List Nat)
  meta : List (Nat × String)
deriving DecidableEq, Repr

/-- The freshly constructed manager: both dictionaries empty. -/
def wsInit : WSState := { active := [], meta := [] }

/-- Python's `list.remove(x)`: drop the first occurrence. -/
def removeFirst : List Nat → Nat → List Nat
  | [], _ => []
  | x :: rest, ws => if x = ws then rest else x :: removeFirst rest ws

/-- `WebSocketManager.connect`: create the conversation's (empty) list
when missing, append the websocket to it, and record the websocket's
metadata. -/
def wsConnect (st : WSState) (ws : Nat) (cid : String) : WSState :=
  let active1 := match alookup st.active cid with
    | some _ => st.active
    | none => st.active ++ [(cid, [])]
  let l := (alookup active1 cid).getD []
  { active := aset active1 cid (l ++ [ws]), meta := aset st.meta ws cid }

/-- `WebSocketManager.disconnect`: with a websocket, remove its first
occurrence from the conversation's list (when present) and delete its
metadata, then drop the conversation key if its list is empty; without
a websocket, delete the metadata of every websocket in the list and
drop the conversation key.  An unknown conversation id is a no-op. -/
def wsDisconnect (st : WSState) (cid : String) (ws? : Option Nat) : WSState :=
  match alookup st.active cid with
  | none => st
  | some l =>
    match ws? with
    | some ws =>
      if ws ∈ l then
        let l1 := removeFirst l ws
        let active1 := aset st.active cid l1
        let meta1 := aerase st.meta ws
        if l1 = [] then { active := aerase active1 cid, meta := meta1 }
        else { active := active1, meta := meta1 }
      else
        if l = [] then { active := aerase st.active cid, meta := st.meta } else st
    | none =>
      { active := aerase st.active cid,
        meta := l.foldl (fun m w => aerase m w) st.meta }

/-- Apply one operation to the manager state. -/
def wsApply (st : WSState) : WSOp → WSState
  | WSOp.connect ws cid => wsConnect st ws cid
  | WSOp.disconnect cid ws? => wsDisconnect st cid ws?

/-- Run a sequence of operations from a state. -/
def wsRun : WSState → List WSOp → WSState
  | st, [] => st
  | st, op :: rest => wsRun (wsApply st op) rest

/-- The claim's usage restriction, per operation: a websocket only
connects to a conversation when it is in no *other* conversation's list
(it is connected to at most one conversation). -/
def opOkAtMostOne (st : WSState) : WSOp → Bool
  | WSOp.connect ws cid =>
      st.active.all (fun p => decide (ws ∈ p.2 → p.1 = cid))
  | WSOp.disconnect _ _ => true

/-- The strengthened usage restriction: a websocket only connects when
it is in no conversation's list at all (it is never re-connected while
connected). -/
def opOkFresh (st : WSState) : WSOp → Bool
  | WSOp.connect ws _ => st.active.all (fun p => decide (ws ∉ p.2))
  | WSOp.disconnect _ _ => true

/-- A trace is legal for a per-operation restriction when every
operation satisfies it in the state it is applied to. -/
def wsLegal (ok : WSState → WSOp → Bool) : WSState → List WSOp → Bool
  | _, [] => true
  | st, op :: rest => ok st op && wsLegal ok (wsApply st op) rest

/-- The keys of `connection_metadata`. -/
def metaKeys (st : WSState) : List Nat := st.meta.map Prod.fst

/-- All websockets stored in the lists of `active_connections`. -/
def activeWS (st : WSState) : List Nat := (st.active.map Prod.snd).flatten

/-- The claimed invariant: the key set of `connection_metadata` equals
the union of the `active_connections` lists, and no conversation maps
to an empty list. -/
def wsInvariant (st : WSState) : Prop :=
  (∀ w ∈ metaKeys st, w ∈ activeWS st) ∧
  (∀ w ∈ activeWS st, w ∈ metaKeys st) ∧
  (∀ p ∈ st.active, p.2 ≠ [])

/-! ### Association-list lemmas -/

theorem alookup_eq_none_iff {α β : Type} [DecidableEq α] (m : List (α × β)) (k : α) :
    alookup m k = none ↔ k ∉ m.map Prod.fst := by
  induction m with
  | nil => simp [alookup]
  | cons p rest ih =>
    rcases p with ⟨k', v⟩
    by_cases h : k = k' <;> simp [alookup, h, ih]

theorem alookup_mem {α β : Type} [DecidableEq α] {m : List (α × β)} {k : α} {v : β}
    (h : alookup m k = some v) : (k, v) ∈ m := by
  induction m with
  | nil => cases h
  | cons p rest ih =>
    rcases p with ⟨k', v'⟩
    by_cases hk : k = k'
    · subst hk
      simp [alookup] at h
      subst h
      exact List.mem_cons_self _ _
    · simp [alookup, hk] at h
      exact List.mem_cons_of_mem _ (ih h)

theorem alookup_some_split {α β : Type} [DecidableEq α] {m : List (α × β)} {k : α} {v : β}
    (h : alookup m k = some v) :
    ∃ m₁ m₂, m = m₁ ++ (k, v) :: m₂ ∧ k ∉ m₁.map Prod.fst := by
  induction m with
  | nil => cases h
  | cons p rest ih =>
    rcases p with ⟨k', v'⟩
    by_cases hk : k = k'
    · subst hk
      simp [alookup] at h
      subst h
      exact ⟨[], rest, rfl, by simp⟩
    · simp [alookup, hk] at h
      obtain ⟨m₁, m₂, hm, hk1⟩ := ih h
      exact ⟨(k', v') :: m₁, m₂, by simp [hm], by simp [hk1, hk]⟩

theorem mem_aerase {α β : Type} [DecidableEq α] {m : List (α × β)} {k : α} {p : α × β} :
    p ∈ aerase m k ↔ p ∈ m ∧ p.1 ≠ k := by
  induction m with
  | nil => simp [aerase]
  | cons q rest ih =>
    rcases q with ⟨k', v'⟩
    by_cases h : k = k'
    · subst h
      rw [show aerase ((k, v') :: rest) k = aerase rest k from by simp [aerase]]
      rw [ih]
      simp only [List.mem_cons]
      constructor
      · rintro ⟨hp, hne⟩
        exact ⟨Or.inr hp, hne⟩
      · rintro ⟨hp | hp, hne⟩
        · exfalso; apply hne; rw [hp]
        · exact ⟨hp, hne⟩
    · rw [show aerase ((k', v') :: rest) k = (k', v') :: aerase rest k from by simp [aerase, h]]
      simp only [List.mem_cons, ih]
      constructor
      · rintro (hp | ⟨hp, hne⟩)
        · refine ⟨Or.inl hp, ?_⟩
          rw [hp]
          exact fun hc => h hc.symm
        · exact ⟨Or.inr hp, hne⟩
      · rintro ⟨hp | hp, hne⟩
        · exact Or.inl hp
        · exact Or.inr ⟨hp, hne⟩

theorem aerase_of_not_mem {α β : Type} [DecidableEq α] {m : List (α × β)} {k : α}
    (h : k ∉ m.map Prod.fst) : aerase m k = m := by
  induction m with
  | nil => rfl
  | cons q rest ih =>
    rcases q with ⟨k', v'⟩
    simp only [List.map_cons, List.mem_cons] at h
    push_neg at h
    simp [aerase, Ne.symm, h.1, ih h.2]

theorem aerase_append {α β : Type} [DecidableEq α] (m₁ m₂ : List (α × β)) (k : α) :
    aerase (m₁ ++ m₂) k = aerase m₁ k ++ aerase m₂ k := by
  induction m₁ with
  | nil => rfl
  | cons q rest ih =>
    rcases q with ⟨k', v'⟩
    by_cases h : k = k'
    · subst h; simp [aerase, ih]
    · simp [aerase, h, ih]

theorem aerase_map_fst_sublist {α β : Type} [DecidableEq α] (m : List (α × β)) (k : α) :
    ((aerase m k).map Prod.fst).Sublist (m.map Prod.fst) := by
  induction m with
  | nil => exact List.Sublist.refl _
  | cons q rest ih =>
    rcases q with ⟨k', v'⟩
    by_cases h : k = k'
    · subst h
      rw [show aerase ((k, v') :: rest) k = aerase rest k from by simp [aerase]]
      exact ih.trans ((List.map Prod.fst rest).sublist_cons_self k)
    · rw [show aerase ((k', v') :: rest) k = (k', v') :: aerase rest k from by
        simp [aerase, h]]
      exact List.Sublist.cons₂ k' ih

theorem aset_of_not_mem {α β : Type} [DecidableEq α] {m : List (α × β)} {k : α} (v : β)
    (h : k ∉ m.map Prod.fst) : aset m k v = m ++ [(k, v)] := by
  induction m with
  | nil => rfl
  | cons q rest ih =>
    rcases q with ⟨k', v'⟩
    simp only [List.map_cons, List.mem_cons] at h
    push_neg at h
    simp [aset, h.1, ih h.2]

theorem aset_append_of_not_mem {α β : Type} [DecidableEq α] {m₁ : List (α × β)}
    (m₂ : List (α × β)) {k : α} (v : β) (h : k ∉ m₁.map Prod.fst) :
    aset (m₁ ++ m₂) k v = m₁ ++ aset m₂ k v := by
  induction m₁ with
  | nil => rfl
  | cons q rest ih =>
    rcases q with ⟨k', v'⟩
    simp only [List.map_cons, List.mem_cons] at h
    push_neg at h
    simp [aset, h.1, ih h.2]

theorem removeFirst_sublist (l : List Nat) (ws : Nat) :
    (removeFirst l ws).Sublist l := by
  induction l with
  | nil => exact List.Sublist.refl _
  | cons x rest ih =>
    by_cases h : x = ws
    · rw [show removeFirst (x :: rest) ws = rest from by simp [removeFirst, h]]
      exact rest.sublist_cons_self x
    · rw [show removeFirst (x :: rest) ws = x :: removeFirst rest ws from by
        simp [removeFirst, h]]
      exact List.Sublist.cons₂ x ih

theorem mem_removeFirst_of_nodup {l : List Nat} (hl : l.Nodup) (ws w : Nat) :
    w ∈ removeFirst l ws ↔ w ∈ l ∧ w ≠ ws := by
  induction l with
  | nil => simp [removeFirst]
  | cons x rest ih =>
    rcases List.nodup_cons.mp hl with ⟨hx, hrest⟩
    by_cases h : x = ws
    · subst h
      simp only [removeFirst, if_pos rfl, List.mem_cons]
      constructor
      · intro hw
        refine ⟨Or.inr hw, ?_⟩
        intro he; subst he; exact hx hw
      · rintro ⟨hw | hw, hne⟩
        · exact absurd hw hne
        · exact hw
    · simp only [removeFirst, if_neg h, List.mem_cons, ih hrest]
      constructor
      · rintro (hw | ⟨hw, hne⟩)
        · subst hw; exact ⟨Or.inl rfl, h⟩
        · exact ⟨Or.inr hw, hne⟩
      · rintro ⟨hw | hw, hne⟩
        · exact Or.inl hw
        · exact Or.inr ⟨hw, hne⟩

theorem mem_foldl_aerase {β : Type} (l : List Nat) (meta : List (Nat × β)) (p : Nat × β) :
    p ∈ l.foldl (fun m w => aerase m w) meta ↔ p ∈ meta ∧ p.1 ∉ l := by
  induction l generalizing meta with
  | nil => simp
  | cons x rest ih =>
    simp only [List.foldl_cons, ih, mem_aerase, List.mem_cons]
    constructor
    · rintro ⟨⟨hp, hne⟩, hrest⟩
      refine ⟨hp, ?_⟩
      rintro (h | h)
      · exact hne h
      · exact hrest h
    · rintro ⟨hp, hni⟩
      push_neg at hni
      exact ⟨⟨hp, hni.1⟩, hni.2⟩

theorem foldl_aerase_map_fst_sublist {β : Type} (l : List Nat) (meta : List (Nat × β)) :
    ((l.foldl (fun m w => aerase m w) meta).map Prod.fst).Sublist (meta.map Prod.fst) := by
  induction l generalizing meta with
  | nil => exact List.Sublist.refl _
  | cons x rest ih =>
    exact (ih (aerase meta x)).trans (aerase_map_fst_sublist meta x)

theorem alookup_append_right {α β : Type} [DecidableEq α] {m₁ : List (α × β)}
    (m₂ : List (α × β)) {k : α} (h : alookup m₁ k = none) :
    alookup (m₁ ++ m₂) k = alookup m₂ k := by
  induction m₁ with
  | nil => rfl
  | cons q rest ih =>
    rcases q with ⟨k', v'⟩
    by_cases hk : k = k'
    · simp [alookup, hk] at h
    · simp only [alookup, List.cons_append, if_neg hk] at h ⊢
      exact ih h

theorem mem_aerase_map_fst {α β : Type} [DecidableEq α] {m : List (α × β)} {k w : α} :
    w ∈ (aerase m k).map Prod.fst ↔ w ∈ m.map Prod.fst ∧ w ≠ k := by
  simp only [List.mem_map]
  constructor
  · rintro ⟨p, hp, rfl⟩
    rcases mem_aerase.mp hp with ⟨hpm, hne⟩
    exact ⟨⟨p, hpm, rfl⟩, hne⟩
  · rintro ⟨⟨p, hpm, rfl⟩, hne⟩
    exact ⟨p, mem_aerase.mpr ⟨hpm, hne⟩, rfl⟩

theorem mem_foldl_aerase_map_fst {β : Type} (l : List Nat) (meta : List (Nat × β)) (w : Nat) :
    w ∈ (l.foldl (fun m x => aerase m x) meta).map Prod.fst ↔
      w ∈ meta.map Prod.fst ∧ w ∉ l := by
  simp only [List.mem_map]
  constructor
  · rintro ⟨p, hp, rfl⟩
    rcases (mem_foldl_aerase l meta p).mp hp with ⟨hpm, hni⟩
    exact ⟨⟨p, hpm, rfl⟩, hni⟩
  · rintro ⟨⟨p, hpm, rfl⟩, hni⟩
    exact ⟨p, (mem_foldl_aerase l meta p).mpr ⟨hpm, hni⟩, rfl⟩

theorem mem_flatten_map_snd {γ : Type} {m : List (γ × List Nat)} {w : Nat} :
    w ∈ (m.map Prod.snd).flatten ↔ ∃ p ∈ m, w ∈ p.2 := by
  simp only [List.mem_flatten, List.mem_map]
  constructor
  · rintro ⟨s, ⟨p, hp, rfl⟩, hw⟩
    exact ⟨p, hp, hw⟩
  · rintro ⟨p, hp, hw⟩
    exact ⟨p.2, ⟨p, hp, rfl⟩, hw⟩

/-! ### The preserved invariant -/

/-- The inductive strengthening of `wsInvariant` maintained by legal
traces: both dictionaries have distinct keys, no conversation list is
empty, no websocket occurs twice across the lists, and the key set of
the metadata equals the union of the lists. -/
structure WSInvStrong (st : WSState) : Prop where
  activeKeysNodup : (st.active.map Prod.fst).Nodup
  metaKeysNodup : (metaKeys st).Nodup
  noEmpty : ∀ p ∈ st.active, p.2 ≠ []
  wsNodup : (activeWS st).Nodup
  metaSub : ∀ w ∈ metaKeys st, w ∈ activeWS st
  wsSub : ∀ w ∈ activeWS st, w ∈ metaKeys st

theorem opOkFresh_connect_not_mem {st : WSState} {ws : Nat} {cid : String}
    (h : opOkFresh st (WSOp.connect ws cid) = true) :
    ∀ p ∈ st.active, ws ∉ p.2 := by
  intro p hp
  have := List.all_eq_true.mp h p hp
  exact of_decide_eq_true this

theorem wsConnect_strong {st : WSState} {ws : Nat} {cid : String}
    (hInv : WSInvStrong st) (hfresh : ∀ p ∈ st.active, ws ∉ p.2) :
    WSInvStrong (wsConnect st ws cid) := by
  obtain ⟨act, met⟩ := st
  have hwsJoin : ws ∉ activeWS ⟨act, met⟩ := by
    intro hw
    obtain ⟨p, hp, hwp⟩ := mem_flatten_map_snd.mp hw
    exact hfresh p hp hwp
  have hwsMeta : ws ∉ metaKeys ⟨act, met⟩ := fun hw => hwsJoin (hInv.metaSub ws hw)
  have hmeta : aset met ws cid = met ++ [(ws, cid)] := aset_of_not_mem cid hwsMeta
  cases hl : alookup act cid with
  | some l =>
    obtain ⟨m₁, m₂, hm, hk1⟩ := alookup_some_split hl
    subst hm
    have hk2 : cid ∉ m₂.map Prod.fst := by
      have h1 := hInv.activeKeysNodup
      simp only [List.map_append, List.map_cons] at h1
      have h2 := (List.nodup_middle.mp h1)
      rcases List.nodup_cons.mp h2 with ⟨hcid, _⟩
      intro hc
      exact hcid (List.mem_append_right _ hc)
    have haset : aset (m₁ ++ (cid, l) :: m₂) cid (l ++ [ws]) =
        m₁ ++ (cid, l ++ [ws]) :: m₂ := by
      rw [aset_append_of_not_mem _ _ hk1]
      simp [aset]
    have heq : wsConnect ⟨m₁ ++ (cid, l) :: m₂, met⟩ ws cid =
        ⟨m₁ ++ (cid, l ++ [ws]) :: m₂, met ++ [(ws, cid)]⟩ := by
      simp [wsConnect, hl, haset, hmeta]
    rw [heq]
    have hJoinOld : activeWS ⟨m₁ ++ (cid, l) :: m₂, met⟩ =
        (m₁.map Prod.snd).flatten ++ (l ++ (m₂.map Prod.snd).flatten) := by
      simp [activeWS]
    have hwsJoin' : ws ∉ (m₁.map Prod.snd).flatten ++ (l ++ (m₂.map Prod.snd).flatten) := by
      rw [← hJoinOld]; exact hwsJoin
    refine ⟨?_, ?_, ?_, ?_, ?_, ?_⟩
    · have h1 := hInv.activeKeysNodup
      simpa using h1
    · have h1 := hInv.metaKeysNodup
      simp only [metaKeys] at h1 ⊢
      rw [List.map_append, List.nodup_append]
      refine ⟨h1, by simp, ?_⟩
      intro a ha hb
      simp at hb
      subst hb
      exact hwsMeta ha
    · intro p hp
      rcases List.mem_append.mp hp with hp1 | hp2
      · exact hInv.noEmpty p (List.mem_append_left _ hp1)
      · rcases List.mem_cons.mp hp2 with hp3 | hp4
        · subst hp3; simp
        · exact hInv.noEmpty p (List.mem_append_right _ (List.mem_cons_of_mem _ hp4))
    · have h1 := hInv.wsNodup
      rw [hJoinOld] at h1
      simp only [activeWS, List.map_append, List.map_cons, List.flatten_append,
        List.flatten_cons]
      have hgoal : (m₁.map Prod.snd).flatten ++ ((l ++ [ws]) ++ (m₂.map Prod.snd).flatten) =
          ((m₁.map Prod.snd).flatten ++ l) ++ ws :: (m₂.map Prod.snd).flatten := by
        simp [List.append_assoc]
      rw [hgoal, List.nodup_middle, List.nodup_cons]
      constructor
      · intro hc
        apply hwsJoin'
        rcases List.mem_append.mp hc with h | h
        · rcases List.mem_append.mp h with h' | h'
          · exact List.mem_append_left _ h'
          · exact List.mem_append_right _ (List.mem_append_left _ h')
        · exact List.mem_append_right _ (List.mem_append_right _ h)
      · have : ((m₁.map Prod.snd).flatten ++ l) ++ (m₂.map Prod.snd).flatten =
            (m₁.map Prod.snd).flatten ++ (l ++ (m₂.map Prod.snd).flatten) := by
          simp [List.append_assoc]
        rw [this]
        exact h1
    · intro w hw
      simp only [metaKeys, List.map_append] at hw
      rcases List.mem_append.mp hw with hw1 | hw2
      · have := hInv.metaSub w hw1
        rw [hJoinOld] at this
        simp only [activeWS, List.map_append, List.map_cons, List.flatten_append,
          List.flatten_cons] at this ⊢
        rcases List.mem_append.mp this with h | h
        · exact List.mem_append_left _ h
        · rcases List.mem_append.mp h with h' | h'
          · exact List.mem_append_right _ (List.mem_append_left _ (List.mem_append_left _ h'))
          · exact List.mem_append_right _ (List.mem_append_right _ h')
      · simp at hw2
        subst hw2
        simp [activeWS]
    · intro w hw
      simp only [activeWS, List.map_append, List.map_cons, List.flatten_append,
        List.flatten_cons] at hw
      simp only [metaKeys, List.map_append]
      have hold : ∀ u, u ∈ activeWS ⟨m₁ ++ (cid, l) :: m₂, met⟩ → u ∈ metaKeys ⟨m₁ ++ (cid, l) :: m₂, met⟩ :=
        hInv.wsSub
      rcases List.mem_append.mp hw with h | h
      · have := hold w (by rw [hJoinOld]; exact List.mem_append_left _ h)
        simp only [metaKeys] at this
        exact List.mem_append_left _ this
      · rcases List.mem_append.mp h with h' | h'
        · rcases List.mem_append.mp h' with h'' | h''
          · have := hold w (by rw [hJoinOld]; exact List.mem_append_right _ (List.mem_append_left _ h''))
            simp only [metaKeys] at this
            exact List.mem_append_left _ this
          · simp at h''
            subst h''
            simp
        · have := hold w (by rw [hJoinOld]; exact List.mem_append_right _ (List.mem_append_right _ h'))
          simp only [metaKeys] at this
          exact List.mem_append_left _ this
  | none =>
    have hnk : cid ∉ act.map Prod.fst := (alookup_eq_none_iff _ _).mp hl
    have h1 : alookup (act ++ [(cid, [])]) cid = some [] := by
      rw [alookup_append_right _ hl]
      simp [alookup]
    have h2 : aset (act ++ [(cid, [])]) cid [ws] = act ++ [(cid, [ws])] := by
      rw [aset_append_of_not_mem _ _ hnk]
      simp [aset]
    have heq : wsConnect ⟨act, met⟩ ws cid = ⟨act ++ [(cid, [ws])], met ++ [(ws, cid)]⟩ := by
      simp only [wsConnect, hl, h1]
      rw [show ((some [] : Option (List Nat)).getD [] ++ [ws]) = [ws] from rfl]
      simp [h2, hmeta]
    rw [heq]
    have hJoinNew : activeWS ⟨act ++ [(cid, [ws])], met ++ [(ws, cid)]⟩ =
        activeWS ⟨act, met⟩ ++ [ws] := by
      simp [activeWS]
    refine ⟨?_, ?_, ?_, ?_, ?_, ?_⟩
    · simp only [List.map_append, List.nodup_append]
      refine ⟨hInv.activeKeysNodup, by simp, ?_⟩
      intro a ha hb
      simp at hb
      subst hb
      exact hnk ha
    · simp only [metaKeys, List.map_append, List.nodup_append]
      refine ⟨hInv.metaKeysNodup, by simp, ?_⟩
      intro a ha hb
      simp at hb
      subst hb
      exact hwsMeta ha
    · intro p hp
      rcases List.mem_append.mp hp with hp1 | hp2
      · exact hInv.noEmpty p hp1
      · simp at hp2
        subst hp2
        simp
    · rw [hJoinNew, List.nodup_append]
      refine ⟨hInv.wsNodup, by simp, ?_⟩
      intro a ha hb
      simp at hb
      subst hb
      exact hwsJoin ha
    · intro w hw
      rw [hJoinNew]
      simp only [metaKeys, List.map_append] at hw
      rcases List.mem_append.mp hw with hw1 | hw2
      · exact List.mem_append_left _ (hInv.metaSub w hw1)
      · simp at hw2
        subst hw2
        simp
    · intro w hw
      rw [hJoinNew] at hw
      simp only [metaKeys, List.map_append]
      rcases List.mem_append.mp hw with hw1 | hw2
      · exact List.mem_append_left _ (hInv.wsSub w hw1)
      · simp at hw2
        subst hw2
        simp

theorem wsDisconnect_strong {st : WSState} {cid : String} {ws? : Option Nat}
    (hInv : WSInvStrong st) : WSInvStrong (wsDisconnect st cid ws?) := by
  obtain ⟨act, met⟩ := st
  cases hl : alookup act cid with
  | none => simpa [wsDisconnect, hl] using hInv
  | some l =>
    obtain ⟨m₁, m₂, hm, hk1⟩ := alookup_some_split hl
    subst hm
    have hk2 : cid ∉ m₂.map Prod.fst := by
      have h1 := hInv.activeKeysNodup
      simp only [List.map_append, List.map_cons] at h1
      have h2 := List.nodup_middle.mp h1
      rcases List.nodup_cons.mp h2 with ⟨hcid, _⟩
      intro hc
      exact hcid (List.mem_append_right _ hc)
    have haerA : ∀ v : List Nat, aerase (m₁ ++ (cid, v) :: m₂) cid = m₁ ++ m₂ := by
      intro v
      rw [aerase_append, aerase_of_not_mem hk1]
      rw [show aerase ((cid, v) :: m₂) cid = aerase m₂ cid from by simp [aerase]]
      rw [aerase_of_not_mem hk2]
    have haset : ∀ v : List Nat, aset (m₁ ++ (cid, l) :: m₂) cid v = m₁ ++ (cid, v) :: m₂ := by
      intro v
      rw [aset_append_of_not_mem _ _ hk1]
      simp [aset]
    have hJoinOld : activeWS ⟨m₁ ++ (cid, l) :: m₂, met⟩ =
        (m₁.map Prod.snd).flatten ++ (l ++ (m₂.map Prod.snd).flatten) := by
      simp [activeWS]
    have hwsN : ((m₁.map Prod.snd).flatten ++ (l ++ (m₂.map Prod.snd).flatten)).Nodup := by
      have := hInv.wsNodup
      rwa [hJoinOld] at this
    have hnd1 := List.nodup_append.mp hwsN
    have hnd2 := List.nodup_append.mp hnd1.2.1
    have hlNodup : l.Nodup := hnd2.1
    have hKeysSubl : ((m₁ ++ m₂).map Prod.fst).Sublist
        ((m₁ ++ (cid, l) :: m₂).map Prod.fst) := by
      simp only [List.map_append, List.map_cons]
      exact (List.Sublist.refl _).append ((m₂.map Prod.fst).sublist_cons_self cid)
    cases ws? with
    | none =>
      have heq : wsDisconnect ⟨m₁ ++ (cid, l) :: m₂, met⟩ cid none =
          ⟨m₁ ++ m₂, l.foldl (fun m w => aerase m w) met⟩ := by
        simp [wsDisconnect, hl, haerA l]
      rw [heq]
      refine ⟨?_, ?_, ?_, ?_, ?_, ?_⟩
      · exact hInv.activeKeysNodup.sublist hKeysSubl
      · exact hInv.metaKeysNodup.sublist (foldl_aerase_map_fst_sublist l met)
      · intro p hp
        rcases List.mem_append.mp hp with h | h
        · exact hInv.noEmpty p (List.mem_append_left _ h)
        · exact hInv.noEmpty p (List.mem_append_right _ (List.mem_cons_of_mem _ h))
      · have hsub : (((m₁ ++ m₂).map Prod.snd).flatten).Sublist
            ((m₁.map Prod.snd).flatten ++ (l ++ (m₂.map Prod.snd).flatten)) := by
          simp only [List.map_append, List.flatten_append]
          exact (List.Sublist.refl _).append
            (List.sublist_append_right l (m₂.map Prod.snd).flatten)
        exact hwsN.sublist (by simp only [activeWS]; exact hsub)
      · intro w hw
        simp only [metaKeys] at hw
        rcases (mem_foldl_aerase_map_fst l met w).mp hw with ⟨hmet, hnl⟩
        have := hInv.metaSub w (by simpa [metaKeys] using hmet)
        rw [hJoinOld] at this
        simp only [activeWS, List.map_append, List.flatten_append]
        rcases List.mem_append.mp this with h | h
        · exact List.mem_append_left _ h
        · rcases List.mem_append.mp h with h' | h'
          · exact absurd h' hnl
          · exact List.mem_append_right _ h'
      · intro w hw
        simp only [activeWS, List.map_append, List.flatten_append] at hw
        have hwold : w ∈ activeWS ⟨m₁ ++ (cid, l) :: m₂, met⟩ := by
          rw [hJoinOld]
          rcases List.mem_append.mp hw with h | h
          · exact List.mem_append_left _ h
          · exact List.mem_append_right _ (List.mem_append_right _ h)
        have hmet := hInv.wsSub w hwold
        have hnl : w ∉ l := by
          rcases List.mem_append.mp hw with h | h
          · intro hc
            exact hnd1.2.2 h (List.mem_append_left _ hc)
          · intro hc
            exact hnd2.2.2 hc h
        simp only [metaKeys] at hmet ⊢
        exact (mem_foldl_aerase_map_fst l met w).mpr ⟨hmet, hnl⟩
    | some ws =>
      by_cases hwl : ws ∈ l
      · have hmemL1 := fun w => mem_removeFirst_of_nodup hlNodup ws w
        have hwsF1 : ws ∉ (m₁.map Prod.snd).flatten := by
          intro h
          exact hnd1.2.2 h (List.mem_append_left _ hwl)
        have hwsF2 : ws ∉ (m₂.map Prod.snd).flatten := by
          intro h
          exact hnd2.2.2 hwl h
        have hs := haset (removeFirst l ws)
        by_cases hempty : removeFirst l ws = []
        · have heq : wsDisconnect ⟨m₁ ++ (cid, l) :: m₂, met⟩ cid (some ws) =
              ⟨m₁ ++ m₂, aerase met ws⟩ := by
            simp [wsDisconnect, hl, hwl, hempty, haset, haerA]
          rw [heq]
          refine ⟨?_, ?_, ?_, ?_, ?_, ?_⟩
          · exact hInv.activeKeysNodup.sublist hKeysSubl
          · exact hInv.metaKeysNodup.sublist (aerase_map_fst_sublist met ws)
          · intro p hp
            rcases List.mem_append.mp hp with h | h
            · exact hInv.noEmpty p (List.mem_append_left _ h)
            · exact hInv.noEmpty p (List.mem_append_right _ (List.mem_cons_of_mem _ h))
          · have hsub : (((m₁ ++ m₂).map Prod.snd).flatten).Sublist
                ((m₁.map Prod.snd).flatten ++ (l ++ (m₂.map Prod.snd).flatten)) := by
              simp only [List.map_append, List.flatten_append]
              exact (List.Sublist.refl _).append
                (List.sublist_append_right l (m₂.map Prod.snd).flatten)
            exact hwsN.sublist (by simp only [activeWS]; exact hsub)
          · intro w hw
            simp only [metaKeys] at hw
            rcases mem_aerase_map_fst.mp hw with ⟨hmet, hne⟩
            have := hInv.metaSub w (by simpa [metaKeys] using hmet)
            rw [hJoinOld] at this
            simp only [activeWS, List.map_append, List.flatten_append]
            rcases List.mem_append.mp this with h | h
            · exact List.mem_append_left _ h
            · rcases List.mem_append.mp h with h' | h'
              · exfalso
                have : w ∈ removeFirst l ws := (hmemL1 w).mpr ⟨h', hne⟩
                rw [hempty] at this
                cases this
              · exact List.mem_append_right _ h'
          · intro w hw
            simp only [activeWS, List.map_append, List.flatten_append] at hw
            have hwold : w ∈ activeWS ⟨m₁ ++ (cid, l) :: m₂, met⟩ := by
              rw [hJoinOld]
              rcases List.mem_append.mp hw with h | h
              · exact List.mem_append_left _ h
              · exact List.mem_append_right _ (List.mem_append_right _ h)
            have hmet := hInv.wsSub w hwold
            have hne : w ≠ ws := by
              intro he
              subst he
              rcases List.mem_append.mp hw with h | h
              · exact hwsF1 h
              · exact hwsF2 h
            simp only [metaKeys] at hmet ⊢
            exact mem_aerase_map_fst.mpr ⟨hmet, hne⟩
        · have heq : wsDisconnect ⟨m₁ ++ (cid, l) :: m₂, met⟩ cid (some ws) =
              ⟨m₁ ++ (cid, removeFirst l ws) :: m₂, aerase met ws⟩ := by
            simp [wsDisconnect, hl, hwl, hempty, hs]
          rw [heq]
          refine ⟨?_, ?_, ?_, ?_, ?_, ?_⟩
          · have := hInv.activeKeysNodup
            simpa using this
          · exact hInv.metaKeysNodup.sublist (aerase_map_fst_sublist met ws)
          · intro p hp
            rcases List.mem_append.mp hp with h | h
            · exact hInv.noEmpty p (List.mem_append_left _ h)
            · rcases List.mem_cons.mp h with h' | h'
              · subst h'
                simpa using hempty
              · exact hInv.noEmpty p (List.mem_append_right _ (List.mem_cons_of_mem _ h'))
          · have hsub : (((m₁ ++ (cid, removeFirst l ws) :: m₂).map Prod.snd).flatten).Sublist
                ((m₁.map Prod.snd).flatten ++ (l ++ (m₂.map Prod.snd).flatten)) := by
              simp only [List.map_append, List.map_cons, List.flatten_append,
                List.flatten_cons]
              exact (List.Sublist.refl _).append
                ((removeFirst_sublist l ws).append (List.Sublist.refl _))
            exact hwsN.sublist (by simp only [activeWS]; exact hsub)
          · intro w hw
            simp only [metaKeys] at hw
            rcases mem_aerase_map_fst.mp hw with ⟨hmet, hne⟩
            have := hInv.metaSub w (by simpa [metaKeys] using hmet)
            rw [hJoinOld] at this
            simp only [activeWS, List.map_append, List.map_cons, List.flatten_append,
              List.flatten_cons]
            rcases List.mem_append.mp this with h | h
            · exact List.mem_append_left _ h
            · rcases List.mem_append.mp h with h' | h'
              · exact List.mem_append_right _
                  (List.mem_append_left _ ((hmemL1 w).mpr ⟨h', hne⟩))
              · exact List.mem_append_right _ (List.mem_append_right _ h')
          · intro w hw
            simp only [activeWS, List.map_append, List.map_cons, List.flatten_append,
              List.flatten_cons] at hw
            have hwInfo : w ∈ activeWS ⟨m₁ ++ (cid, l) :: m₂, met⟩ ∧ w ≠ ws := by
              rw [hJoinOld]
              rcases List.mem_append.mp hw with h | h
              · refine ⟨List.mem_append_left _ h, ?_⟩
                intro he; subst he; exact hwsF1 h
              · rcases List.mem_append.mp h with h' | h'
                · rcases (hmemL1 w).mp h' with ⟨hin, hne⟩
                  exact ⟨List.mem_append_right _ (List.mem_append_left _ hin), hne⟩
                · refine ⟨List.mem_append_right _ (List.mem_append_right _ h'), ?_⟩
                  intro he; subst he; exact hwsF2 h'
            have hmet := hInv.wsSub w hwInfo.1
            simp only [metaKeys] at hmet ⊢
            exact mem_aerase_map_fst.mpr ⟨hmet, hwInfo.2⟩
      · have hlne : l ≠ [] :=
          hInv.noEmpty (cid, l)
            (List.mem_append_right _ (List.mem_cons_self _ _))
        have heq : wsDisconnect ⟨m₁ ++ (cid, l) :: m₂, met⟩ cid (some ws) =
            ⟨m₁ ++ (cid, l) :: m₂, met⟩ := by
          simp [wsDisconnect, hl, hwl, hlne]
        rw [heq]
        exact hInv

theorem wsApply_strong {st : WSState} {op : WSOp} (hInv : WSInvStrong st)
    (hok : opOkFresh st op = true) : WSInvStrong (wsApply st op) := by
  cases op with
  | connect ws cid => exact wsConnect_strong hInv (opOkFresh_connect_not_mem hok)
  | disconnect cid ws? => exact wsDisconnect_strong hInv

theorem wsRun_strong {st : WSState} {ops : List WSOp} (hInv : WSInvStrong st)
    (hleg : wsLegal opOkFresh st ops = true) : WSInvStrong (wsRun st ops) := by
  induction ops generalizing st with
  | nil => exact hInv
  | cons op rest ih =>
    rw [wsLegal, Bool.and_eq_true] at hleg
    exact ih (wsApply_strong hInv hleg.1) hleg.2

theorem wsInit_strong : WSInvStrong wsInit := by
  refine ⟨?_, ?_, ?_, ?_, ?_, ?_⟩ <;> simp [wsInit, metaKeys, activeWS]

theorem wsInvStrong_implies_invariant {st : WSState} (h : WSInvStrong st) :
    wsInvariant st := ⟨h.metaSub, h.wsSub, h.noEmpty⟩

/-! ## Theorems for C6 -/

/-- A trace in which websocket `0` connects twice to the same
conversation `"c"` and then disconnects once: it is connected to at
most one conversation throughout, yet the final state keeps `0` in the
`active_connections` list while its metadata entry is gone. -/
def wsCounterexampleOps : List WSOp :=
  [WSOp.connect 0 "c", WSOp.connect 0 "c", WSOp.disconnect "c" (some 0)]

/-- C6 counterexample: the trace `wsCounterexampleOps` satisfies the
claim's hypothesis — each websocket is connected to at most one
conversation — but the resulting state violates the claimed invariant:
websocket `0` is still in the union of the `active_connections` lists
while the key set of `connection_metadata` is empty. -/
theorem c6_ws_invariant_counterexample :
    wsLegal opOkAtMostOne wsInit wsCounterexampleOps = true ∧
      ¬ wsInvariant (wsRun wsInit wsCounterexampleOps) := by
  constructor
  · decide
  · intro h
    have h0 : (0 : Nat) ∈ activeWS (wsRun wsInit wsCounterexampleOps) := by decide
    have := h.2.1 0 h0
    revert this
    decide

/-- A small legal trace for the witness: two different websockets join
conversation `"a"`, then one leaves. -/
def wsWitnessOps : List WSOp :=
  [WSOp.connect 0 "a", WSOp.connect 1 "a", WSOp.disconnect "a" (some 0)]

/-- C6 amended: over every sequence of `connect` / `disconnect`
operations in which a websocket only ever connects while it is in no
conversation's list (in particular it is connected to at most one
conversation, and never re-connected while connected), the manager
preserves the invariant: the key set of `connection_metadata` equals
the union of the `active_connections` lists, and no conversation id
maps to an empty list. -/
theorem c6_ws_invariant_amended (ops : List WSOp)
    (hleg : wsLegal opOkFresh wsInit ops = true) :
    wsInvariant (wsRun wsInit ops) :=
  wsInvStrong_implies_invariant (wsRun_strong wsInit_strong hleg)

/-- Witness for `c6_ws_invariant_amended` on the concrete legal trace
`wsWitnessOps`. -/
theorem c6_ws_invariant_amended_witness :
    wsLegal opOkFresh wsInit wsWitnessOps = true ∧
      wsInvariant (wsRun wsInit wsWitnessOps) :=
  ⟨by decide, c6_ws_invariant_amended wsWitnessOps (by decide)⟩
